import Mathlib

/-!
Verification of the Guardian Angel scam-detection core against its design
specification.

The development shallowly embeds the relevant Python code:

* `tools/scam_detector.py` — keyword matching (`_find_matches`,
  `_count_high_severity`), scoring (`ScamDetector._compute_score`,
  `ScamDetector.analyze_text`) and classification
  (`ScamDetector.get_threat_level`);
* `tools/alert_system.py` — the escalation rule table and the decision core
  of `AlertSystem.escalate`;
* `app.py` — the streaming event aggregator inside `analyze_call`, the
  zero-event failure path, and the verdict parser `extract_final_verdict`.

Python strings are modelled as `String` / `List Char`; Python `re` searches
are modelled by explicit leftmost scans that implement exactly the regular
expressions appearing in the source (each is a literal/character-class
pattern for which greedy matching needs no backtracking, as noted inline).
Floating-point score arithmetic only ever produces exact multiples of 0.5
(category contributions are 0, 12.5 or 25; all bonuses are integers), so the
score is modelled exactly in half-points with `Nat` arithmetic; Python's
`int()` truncation of a nonnegative float is `Nat` division by 2.
-/

namespace GuardianAngel

/-! ## Character and string utilities (ASCII fragment of Python semantics) -/

/-- Python `str.lower` restricted to ASCII; the Kannada keywords in the
lexicon are caseless so this agrees with Python on every string the
detector compares. -/
def pyLower (c : Char) : Char :=
  if 'A' ≤ c ∧ c ≤ 'Z' then Char.ofNat (c.toNat + 32) else c

/-- Python `str.upper` restricted to ASCII. -/
def pyUpper (c : Char) : Char :=
  if 'a' ≤ c ∧ c ≤ 'z' then Char.ofNat (c.toNat - 32) else c

/-- Lowercase a character list. -/
def lcs (l : List Char) : List Char := l.map pyLower

/-- Python `\s` (ASCII whitespace; the source texts use no Unicode spaces). -/
def isPySpace (c : Char) : Bool :=
  c = ' ' ∨ c = '\t' ∨ c = '\n' ∨ c = '\x0d' ∨ c = '\x0b' ∨ c = '\x0c'

/-- Python `\d` (ASCII digits). -/
def isPyDigit (c : Char) : Bool := '0' ≤ c ∧ c ≤ '9'

/-- Python `\w` for `re` on `str`: ASCII alphanumerics, underscore, and word
characters of other scripts; all non-ASCII codepoints appearing in this
repository's data (Kannada letters) are word constituents. -/
def isWordChar (c : Char) : Bool := c.isAlphanum ∨ c = '_' ∨ 127 < c.toNat

/-- Python `str.strip()` (ASCII whitespace on both ends). -/
def stripWS (l : List Char) : List Char :=
  ((l.dropWhile isPySpace).reverse.dropWhile isPySpace).reverse

/-- The literal pattern `pat` occurs in `txt` starting at index `i`. -/
def substrAt (pat txt : List Char) (i : Nat) : Bool :=
  pat.isPrefixOf (txt.drop i)

/-- Python `pat in txt` (plain substring containment). -/
def containsSub (pat txt : List Char) : Bool :=
  (List.range (txt.length + 1)).any (fun i => substrAt pat txt i)

/-- `True` iff exactly one of the characters around position `i` (the one at
`i - 1` and the one at `i`) is a word character: the semantics of the regex
word-boundary assertion `\b` at position `i`, positions outside the text
counting as non-word. -/
def hasBoundary (txt : List Char) (i : Nat) : Bool :=
  (if i = 0 then false else ((txt.get? (i - 1)).map isWordChar).getD false)
    != ((txt.get? i).map isWordChar).getD false

/-- `re.search(r'\b' + re.escape(pat) + r'\b', txt)` succeeds: some
occurrence of the (escaped, hence literal) pattern is flanked by word
boundaries on both sides. -/
def boundedContains (pat txt : List Char) : Bool :=
  (List.range (txt.length + 1)).any
    (fun i => substrAt pat txt i && hasBoundary txt i
      && hasBoundary txt (i + pat.length))

/-! ## `scam_detector._find_matches` and `_count_high_severity` -/

/-- `_find_matches(text, keywords)`: keywords of normalized length ≤ 5 are
matched at word boundaries, longer ones as case-insensitive substrings; the
result lists the matching keywords in list order (the source builds it by
appending, which is exactly a filter). -/
def findMatches (text : String) (keywords : List String) : List String :=
  let textLower := lcs text.data
  keywords.filter fun kw =>
    let kwLower := lcs kw.data
    if kwLower.length ≤ 5 then boundedContains kwLower textLower
    else containsSub kwLower textLower

/-! ## The lexicon (module-level keyword lists of `scam_detector.py`) -/

def FEAR_KEYWORDS_EN : List String :=
  ["arrest", "arrested", "digital arrest", "under arrest",
   "police", "crime", "criminal", "illegal",
   "fraud", "warrant", "jail", "prison", "sued", "lawsuit",
   "investigation", "fir", "case filed", "cybercrime",
   "court order", "government action", "seized", "detained",
   "legal action", "escalated for", "escalate the matter",
   "remain on this call", "remain available on this call",
   "do not disconnect", "cannot leave"]

def FEAR_KEYWORDS_HI : List String :=
  ["giraftari", "giraftar", "police", "fir", "kejar", "jail",
   "qanoon", "adalat", "criminal", "pakad", "case",
   "saza", "kaid", "warrant", "aarop",
   "kanoon", "cybercrime", "digital giraftari"]

def FEAR_KEYWORDS_KN : List String :=
  ["digital bandana", "digital bandhanada", "digtal arrest",
   "sajjana", "keisi", "arrest madutteve", "bandana",
   "cyber crime", "takshanadha", "takshana", "takshanave",
   "suchane anusarisabeku", "kayida kriya"]

def FEAR_KEYWORDS_KN_UNICODE : List String :=
  ["ಡಿಜಿಟಲ್ ಬಂಧನ", "ಬಂಧನ", "ಸೈಬರ್ ಕ್ರೈಮ್", "ಕ್ರಿಮಿನಲ್",
   "ಕಾನೂನು ಕ್ರಮ", "ಡಿಜಿಟಲ್", "ಆರೋಪ", "ತಕ್ಷಣ"]

def AUTHORITY_KEYWORDS_EN : List String :=
  ["central bureau of investigation", "cbi officer", "cbi unit",
   "cyber crime unit", "cybercrime unit", "cyber crime cell",
   "enforcement directorate", "income tax department", "income tax officer",
   "customs department", "customs officer", "narcotics control",
   "trai", "telecom regulatory", "supreme court", "high court",
   "government of india", "rbi", "sebi", "interpol",
   "commissioner of police", "national security", "cyber police",
   "compliance review", "verification officer",
   "inspector", "ips officer", "ias officer",
   "ministry of", "home ministry"]

def AUTHORITY_KEYWORDS_HI : List String :=
  ["cbi", "trai", "sarkar", "mantri",
   "collector", "commissioner", "adhikari", "enforcement directorate",
   "income tax", "customs vibhag",
   "supreme court", "high court", "cyber police"]

def AUTHORITY_KEYWORDS_KN : List String :=
  ["cyber crime vibhaga", "takshanadha",
   "cbi adhikari", "police adhikari",
   "sarkar", "nyayalaya",
   "commissioner", "inspector"]

def AUTHORITY_KEYWORDS_KN_UNICODE : List String :=
  ["ಸೈಬರ್ ಕ್ರೈಮ್ ಘಟಕ", "ಇನ್ಸ್ ಪೆಕ್ಟರ್", "ಸರ್ಕಾರ", "ನ್ಯಾಯಾಲಯ", "ಆಧಾರ್"]

def URGENCY_KEYWORDS_EN : List String :=
  ["immediately", "right now", "within 24 hours", "urgent",
   "do not delay", "last warning", "final notice", "today only",
   "in the next hour", "within minutes", "before it\x27s too late",
   "deadline", "no time left", "act now", "emergency",
   "do not hang up", "stay on the line", "remain on this call",
   "remain available on this call", "avoid automated",
   "automated system escalation", "must follow instructions",
   "otherwise the matter will be escalated",
   "cannot be delayed", "must not disconnect"]

def URGENCY_KEYWORDS_HI : List String :=
  ["abhi", "turant", "jaldi", "der mat karo", "aaj hi",
   "kal tak", "call mat kaatna", "ruko mat", "baad mein nahi",
   "aakhri mauka", "warning", "emergency", "sirf aaj",
   "fauran", "der karne par"]

def URGENCY_KEYWORDS_KN : List String :=
  ["takshana", "takshanadha", "ippude", "bega",
   "delay madabeda", "call kaiyodu", "takshanave"]

def URGENCY_KEYWORDS_KN_UNICODE : List String :=
  ["ತಕ್ಷಣ", "ಸೂಚನೆಗಳನ್ನು ಅನುಸರಿಸಬೇಕು", "ಕರೆಯಲ್ಲಿ ಉಳಿದು",
   "ವಿಷಯವನ್ನು ಹೆಚ್ಚಿಸಲಾಗುವುದು"]

def FINANCIAL_KEYWORDS_EN : List String :=
  ["send money", "transfer money", "wire transfer", "pay fine",
   "bank account", "bitcoin", "gift card", "amazon card",
   "cash deposit", "clear your dues", "upfront payment",
   "advance payment", "security deposit", "freeze your account",
   "account will be frozen", "account will be blocked",
   "pay immediately", "rupees", "dollars", "lakh", "crore",
   "payment required", "fine to be paid"]

def FINANCIAL_KEYWORDS_HI : List String :=
  ["paise bhejo", "transfer karo", "account mein dalo",
   "fine bharo", "jama karo", "bank account band",
   "froze", "rupaye", "lakh", "crore", "paisa",
   "payment", "advance", "guarantee deposit"]

def FINANCIAL_KEYWORDS_KN : List String :=
  ["hortu madabeku", "paise", "account freeze",
   "dakshina", "harishavanu"]

def FINANCIAL_KEYWORDS_KN_UNICODE : List String :=
  ["ಹಣ", "ಪಾವತಿ", "ಖಾತೆ", "ರೂಪಾಯಿ"]

def HIGH_SEVERITY_PHRASES : List String :=
  ["digital arrest",
   "under digital arrest",
   "you are under arrest",
   "warrant has been issued",
   "arrested for money laundering",
   "drug trafficking",
   "aadhaar has been used",
   "aadhaar linked to",
   "illegal use of aadhaar",
   "remain on this call",
   "do not disconnect",
   "do not hang up",
   "immediate legal action"]

/-- `_count_high_severity(text)`: the number of high-severity phrases
present as case-insensitive substrings (`sum(1 for ...)` over the list,
whose entries are pairwise distinct, so this is a count of distinct
phrases). -/
def countHighSeverity (text : String) : Nat :=
  let textLower := lcs text.data
  (HIGH_SEVERITY_PHRASES.filter fun p => containsSub (lcs p.data) textLower).length

/-! ## `ScamDetector.analyze_text` and friends -/

/-- Position of the first `']'` in `l` on the current line, if any:
the lazy `.*?]` tail of the tag pattern without `re.DOTALL`, where `.`
does not match a newline. -/
def findCloseBracket : List Char → Option Nat
  | [] => none
  | c :: rest =>
    if c = ']' then some 0
    else if c = '\n' then none
    else (findCloseBracket rest).map (· + 1)

/-- Worker for `removeLangTags`, structurally recursive on a fuel argument
so that it evaluates inside the kernel; every step consumes at least one
character, so fuel equal to the input length never runs out. -/
def removeLangTagsAux : Nat → List Char → List Char
  | 0, l => l
  | _ + 1, [] => []
  | fuel + 1, c :: rest =>
    if "[Language:".data.isPrefixOf (c :: rest) then
      match findCloseBracket ((c :: rest).drop 10) with
      | some j => removeLangTagsAux fuel (rest.drop (9 + j + 1))
      | none => c :: removeLangTagsAux fuel rest
    else c :: removeLangTagsAux fuel rest

/-- `re.sub(r"\[Language:.*?\]", "", text)`: delete every non-overlapping,
leftmost-first occurrence of a bracketed language tag.  The tag literal
`[Language:` has 10 characters; the lazy tail runs to the closest `]` on
the same line. -/
def removeLangTags (l : List Char) : List Char := removeLangTagsAux l.length l

/-- `clean_text = re.sub(r"\[Language:.*?\]", "", text).strip()` -/
def cleanText (t : String) : String := String.mk (stripWS (removeLangTags t.data))

/-- The dict returned by `ScamDetector.analyze_text` (§6 JSON-equivalent
shape).  The score is a `Nat`: the source value is `min(int(score), 100)`
of a nonnegative float. -/
structure AnalysisResult where
  fear_indicators : List String
  authority_impersonation : List String
  urgency_signals : List String
  financial_pressure : List String
  threat_score : Nat
  high_severity_count : Nat
deriving DecidableEq, Repr

/-- `ScamDetector._empty_result()` -/
def emptyResult : AnalysisResult :=
  { fear_indicators := []
    authority_impersonation := []
    urgency_signals := []
    financial_pressure := []
    threat_score := 0
    high_severity_count := 0 }

/-- `_contribution(matches, weight)` in half-points:
`(min(len(matches), 2) / 2) * weight` points equals
`min(len(matches), 2) * weight` half-points exactly. -/
def contributionHalf (ms : List String) (weight : Nat) : Nat :=
  min ms.length 2 * weight

/-- `ScamDetector._compute_score` in half-points; `min(int(score), 100)`
of the exact half-integer float is `min (half / 2) 100` in `Nat`. -/
def computeScore (fear authority urgency financial : List String)
    (high_sev : Nat) : Nat :=
  let base := contributionHalf fear 25 + contributionHalf authority 25
    + contributionHalf urgency 25 + contributionHalf financial 25
  let triggered :=
    ([fear, authority, urgency, financial].countP fun lst => !lst.isEmpty)
  let withBonus := base + (if 2 ≤ triggered then 20 else 0)
  let total := withBonus + min high_sev 2 * 30
  min (total / 2) 100

def allFearKeywords : List String :=
  FEAR_KEYWORDS_EN ++ FEAR_KEYWORDS_HI ++ FEAR_KEYWORDS_KN
    ++ FEAR_KEYWORDS_KN_UNICODE

def allAuthorityKeywords : List String :=
  AUTHORITY_KEYWORDS_EN ++ AUTHORITY_KEYWORDS_HI ++ AUTHORITY_KEYWORDS_KN
    ++ AUTHORITY_KEYWORDS_KN_UNICODE

def allUrgencyKeywords : List String :=
  URGENCY_KEYWORDS_EN ++ URGENCY_KEYWORDS_HI ++ URGENCY_KEYWORDS_KN
    ++ URGENCY_KEYWORDS_KN_UNICODE

def allFinancialKeywords : List String :=
  FINANCIAL_KEYWORDS_EN ++ FINANCIAL_KEYWORDS_HI ++ FINANCIAL_KEYWORDS_KN
    ++ FINANCIAL_KEYWORDS_KN_UNICODE

/-- The four raw per-category match lists of `analyze_text` (its local
variables `fear`, `authority`, `urgency`, `financial`). -/
def rawFear (t : String) : List String := findMatches (cleanText t) allFearKeywords

def rawAuthority (t : String) : List String :=
  findMatches (cleanText t) allAuthorityKeywords

def rawUrgency (t : String) : List String :=
  findMatches (cleanText t) allUrgencyKeywords

def rawFinancial (t : String) : List String :=
  findMatches (cleanText t) allFinancialKeywords

/-- `ScamDetector.analyze_text(text)`. The argument is `Option String`:
`none` stands for any non-string Python value, which — like the empty
string — fails the `if not text or not isinstance(text, str)` guard and
yields `_empty_result()`.  `list(set(...))` deduplicates each evidence
list; CPython's set iteration order is unspecified, so the model picks the
canonical `List.dedup` order (the set of elements and its size are what the
specification constrains). -/
def analyzeText (text : Option String) : AnalysisResult :=
  match text with
  | none => emptyResult
  | some t =>
    if t = "" then emptyResult
    else
      let fear := rawFear t
      let authority := rawAuthority t
      let urgency := rawUrgency t
      let financial := rawFinancial t
      let high_sev := countHighSeverity (cleanText t)
      { fear_indicators := fear.dedup
        authority_impersonation := authority.dedup
        urgency_signals := urgency.dedup
        financial_pressure := financial.dedup
        threat_score := computeScore fear authority urgency financial high_sev
        high_severity_count := high_sev }

/-- `ScamDetector.get_threat_level(threat_score)`; total over all
integers. -/
def getThreatLevel (threat_score : Int) : String :=
  if threat_score ≥ 75 then "CRITICAL"
  else if threat_score ≥ 50 then "HIGH_RISK"
  else if threat_score ≥ 25 then "SUSPICIOUS"
  else "SAFE"

/-- Rank of a threat-level label in the total order
SAFE < SUSPICIOUS < HIGH_RISK < CRITICAL (§3 `ThreatLevel`). -/
def levelRank (level : String) : Nat :=
  if level = "SAFE" then 0
  else if level = "SUSPICIOUS" then 1
  else if level = "HIGH_RISK" then 2
  else if level = "CRITICAL" then 3
  else 0

/-! ## `alert_system.py`: escalation rules and the decision core of
`AlertSystem.escalate`.  Delivery (email / console printing) is an external
side effect; the observable decision — which notification classes fire and
which report message is produced — is a pure function of the rule table. -/

structure EscalationRule where
  alert_family : Bool
  alert_police : Bool
  message : String
deriving DecidableEq, Repr

def ESCALATION_RULES : List (String × EscalationRule) :=
  [("SAFE",
    { alert_family := false, alert_police := false,
      message := "[SAFE] Call appears SAFE. No action required." }),
   ("SUSPICIOUS",
    { alert_family := false, alert_police := false,
      message := "[WARNING] SUSPICIOUS activity detected. Advise the senior NOT to share personal or financial details. Monitor the situation." }),
   ("HIGH_RISK",
    { alert_family := true, alert_police := false,
      message := "[HIGH RISK] HIGH RISK scam detected! Family members have been notified. Senior should end the call immediately and consult family." }),
   ("CRITICAL",
    { alert_family := true, alert_police := true,
      message := "[CRITICAL] CRITICAL THREAT -- SCAM CALL IN PROGRESS! Emergency alert sent to family AND local cybercrime police. Senior must HANG UP IMMEDIATELY. Do NOT share any information." })]

/-- `_ESCALATION_RULES.get(threat_level, _ESCALATION_RULES["SUSPICIOUS"])` -/
def escalationRulesGet (threat_level : String) : EscalationRule :=
  (ESCALATION_RULES.lookup threat_level).getD
    { alert_family := false, alert_police := false,
      message := "[WARNING] SUSPICIOUS activity detected. Advise the senior NOT to share personal or financial details. Monitor the situation." }

/-- Observable outcome of `AlertSystem.escalate`: the family notification
fires iff `rules["alert_family"]`, the police notification iff
`rules["alert_police"]`, and the report opens with `rules["message"]`. -/
structure EscalationOutcome where
  notifyFamily : Bool
  notifyPolice : Bool
  message : String
deriving DecidableEq, Repr

def escalate (threat_level : String) : EscalationOutcome :=
  let rules := escalationRulesGet threat_level
  { notifyFamily := rules.alert_family
    notifyPolice := rules.alert_police
    message := rules.message }

/-! ## The streaming event aggregator inside `app.py::analyze_call` -/

/-- `KNOWN_AGENTS` (the fixed set of recognized stage identifiers; no name
is a prefix of another, which the `TaskResult` handling below relies on). -/
def KNOWN_AGENTS : List String :=
  ["Speech_Agent", "Reasoning_Agent", "Decision_Agent", "Action_Agent"]

/-- One event of the run's stream.  `textMessage`/`response` carry the
`source` and string content (`Response` events whose `chat_message.content`
is not a string contribute `content_str = ""` and are then discarded by the
empty-content guard, so `""` models them faithfully); `taskResult` carries
the `(source, content)` projections of the final record's messages, where
`""` likewise models a missing or non-string content; `other` is any event
of a type the loop ignores. -/
inductive StreamEvent where
  | taskResult (msgs : List (String × String))
  | textMessage (source content : String)
  | response (source content : String)
  | other
deriving DecidableEq, Repr

/-- Loop state.  Each element `(s, c)` of `messages` models the string
`"[" ++ s ++ "] " ++ c`; `index` models the dict `agent_msg_index`
(`source → position in messages`). -/
structure AggState where
  messages : List (String × String)
  index : List (String × Nat)
deriving DecidableEq, Repr

def initAgg : AggState := { messages := [], index := [] }

/-- Live-streaming branch: `if source not in KNOWN_AGENTS or not
content_str: continue`; first message from an agent is appended and its
index recorded, later messages update in place at the recorded index. -/
def acceptStream (source content : String) (st : AggState) : AggState :=
  if source ∈ KNOWN_AGENTS ∧ content ≠ "" then
    match st.index.lookup source with
    | none =>
      { messages := st.messages ++ [(source, content)]
        index := st.index ++ [(source, st.messages.length)] }
    | some idx => { st with messages := st.messages.set idx (source, content) }
  else st

/-- Rebuild of `final_messages` from a `TaskResult`: messages from unknown
sources or with empty/non-string content are skipped; for each kept message
every earlier entry of the same agent is removed before appending (the
source filters on `x.startswith("[" + s + "]")`, which — the sources all
being drawn from `KNOWN_AGENTS`, none a prefix of another — is exactly a
same-source test). -/
def tsStep (acc : List (String × String)) (m : String × String) :
    List (String × String) :=
  if m.1 ∈ KNOWN_AGENTS ∧ m.2 ≠ "" then
    acc.filter (fun x => x.1 ≠ m.1) ++ [m]
  else acc

def buildFinalMessages (msgs : List (String × String)) : List (String × String) :=
  msgs.foldl tsStep []

/-- `TaskResult` branch: `if final_log: messages = final_messages` —
`final_log` is non-empty exactly when some message was kept.  The dict
`agent_msg_index` is left untouched by the source, hence here too. -/
def acceptTaskResult (msgs : List (String × String)) (st : AggState) : AggState :=
  let fm := buildFinalMessages msgs
  if fm = [] then st else { st with messages := fm }

def ingest (st : AggState) : StreamEvent → AggState
  | .taskResult msgs => acceptTaskResult msgs st
  | .textMessage source content => acceptStream source content st
  | .response source content => acceptStream source content st
  | .other => st

def runAgg (events : List StreamEvent) : AggState :=
  events.foldl ingest initAgg

/-! ## `app.py::extract_final_verdict`

Each regex in the source is a literal / character-class pattern.  Greedy
sub-patterns (`\s*`, `[:\s*_]+`, `[:\s]+`, `\d+`) are always followed by a
token that no character of their class can begin (a letter, a digit after a
non-digit class, or an alternation of letters), so maximal munch needs no
backtracking and `re.search`'s behaviour is: scan start positions left to
right, at each position match greedily, first full success wins. -/

/-- Case-insensitive literal prefix test (`re.IGNORECASE`). -/
def icPrefix : List Char → List Char → Bool
  | [], _ => true
  | _ :: _, [] => false
  | p :: ps, t :: ts => pyLower p = pyLower t && icPrefix ps ts

/-- Leftmost case-insensitive occurrence of a literal. -/
def findCI (pat txt : List Char) : Option Nat :=
  (List.range (txt.length + 1)).find? fun i => icPrefix pat (txt.drop i)

/-- Length of the maximal run of class characters (greedy `[...]∗`). -/
def spanLen (p : Char → Bool) (l : List Char) : Nat := (l.takeWhile p).length

/-- The character class `[:\s*_]`. -/
def isLevelSep (c : Char) : Bool := c = ':' || isPySpace c || c = '*' || c = '_'

/-- The character class `[:\s]`. -/
def isColonSpace (c : Char) : Bool := c = ':' || isPySpace c

/-- Match label parts separated by `\s*` (e.g. `Threat\s*Level`) starting at
`i`; returns the position after the label. -/
def matchLabelAt : List (List Char) → List Char → Nat → Option Nat
  | [], _, i => some i
  | p :: rest, txt, i =>
    if icPrefix p (txt.drop i) then
      let j := i + p.length
      match rest with
      | [] => some j
      | _ :: _ => matchLabelAt rest txt (j + spanLen isPySpace (txt.drop j))
    else none

/-- The alternation `(SAFE|SUSPICIOUS|HIGH[_\s]RISK|CRITICAL)` tried in
source order at position `i`; returns the captured slice of the original
text. -/
def levelAlt (txt : List Char) (i : Nat) : Option (List Char) :=
  let rest := txt.drop i
  if icPrefix "SAFE".data rest then some (rest.take 4)
  else if icPrefix "SUSPICIOUS".data rest then some (rest.take 10)
  else if icPrefix "HIGH".data rest
      && (match rest.drop 4 with
          | c :: _ => c = '_' || isPySpace c
          | [] => false)
      && icPrefix "RISK".data (rest.drop 5) then some (rest.take 9)
  else if icPrefix "CRITICAL".data rest then some (rest.take 8)
  else none

/-- One attempt of `Threat\s*Level[:\s*_]+(SAFE|SUSPICIOUS|HIGH[_\s]RISK|CRITICAL)`
at start position `i`. -/
def tryLevelAt (block : List Char) (i : Nat) : Option (List Char) :=
  match matchLabelAt ["threat".data, "level".data] block i with
  | none => none
  | some j =>
    let r := spanLen isLevelSep (block.drop j)
    if r = 0 then none else levelAlt block (j + r)

def searchLevel (block : List Char) : Option (List Char) :=
  (List.range (block.length + 1)).findSome? (tryLevelAt block)

/-- `int` of a digit string (`int(m.group(1))`). -/
def natOfDigits (ds : List Char) : Nat :=
  ds.foldl (fun n c => n * 10 + (c.toNat - 48)) 0

/-- One attempt of `Threat\s*Score[:\s*_]+(\d+)` at start position `i`. -/
def tryScoreLabeledAt (block : List Char) (i : Nat) : Option Nat :=
  match matchLabelAt ["threat".data, "score".data] block i with
  | none => none
  | some j =>
    let r := spanLen isLevelSep (block.drop j)
    if r = 0 then none
    else
      let ds := (block.drop (j + r)).takeWhile isPyDigit
      if ds = [] then none else some (natOfDigits ds)

def searchScoreLabeled (block : List Char) : Option Nat :=
  (List.range (block.length + 1)).findSome? (tryScoreLabeledAt block)

/-- One attempt of the fallback `score[:\s]+(\d+)\s*(?:/\s*100)?`; the
trailing optional group affects nothing captured. -/
def tryScoreFallbackAt (block : List Char) (i : Nat) : Option Nat :=
  if icPrefix "score".data (block.drop i) then
    let r := spanLen isColonSpace (block.drop (i + 5))
    if r = 0 then none
    else
      let ds := (block.drop (i + 5 + r)).takeWhile isPyDigit
      if ds = [] then none else some (natOfDigits ds)
  else none

def searchScoreFallback (block : List Char) : Option Nat :=
  (List.range (block.length + 1)).findSome? (tryScoreFallbackAt block)

/-- The lookahead `(?=\n\s*[-*]\s+\w|DECISION_DONE|$)` holds at position
`p` (`$` without `re.MULTILINE`: end of text, or just before a final
newline). -/
def stopAt (block : List Char) (p : Nat) : Bool :=
  (match block.get? p with
   | some c =>
     if c = '\n' then
       let q := p + 1 + spanLen isPySpace (block.drop (p + 1))
       match block.get? q with
       | some d =>
         (d = '-' || d = '*')
           && (let w := spanLen isPySpace (block.drop (q + 1))
               decide (1 ≤ w)
                 && (((block.get? (q + 1 + w)).map isWordChar).getD false))
       | none => false
     else false
   | none => false)
  || icPrefix "decision_done".data (block.drop p)
  || decide (p = block.length)
  || (decide (p + 1 = block.length) && decide (block.get? p = some '\n'))

/-- One attempt of `label[:\s*_]+(.+?)(?=\n\s*[-*]\s+\w|DECISION_DONE|$)`
(with `re.DOTALL`) at start position `i`: lazy `(.+?)` stops at the
earliest position `e` (at least one character in) where the lookahead
holds; if the separator run reaches the end of the text the engine
backtracks it by one character so `(.+?)` can capture that character before
`$`. -/
def tryFieldAt (parts : List (List Char)) (block : List Char) (i : Nat) :
    Option (List Char) :=
  match matchLabelAt parts block i with
  | none => none
  | some j =>
    let r := spanLen isLevelSep (block.drop j)
    if r = 0 then none
    else
      let q := j + r
      if q < block.length then
        match (List.range' (q + 1) (block.length - q)).find?
            (fun e => stopAt block e) with
        | some e => some ((block.drop q).take (e - q))
        | none => none
      else if 2 ≤ r then some ((block.drop (q - 1)).take 1)
      else none

def searchField (parts : List (List Char)) (block : List Char) :
    Option (List Char) :=
  (List.range (block.length + 1)).findSome? (tryFieldAt parts block)

/-- A markdown-decoration character of `_strip_md`'s class.
(The class is star, underscore, backtick, hash; the backtick is written by
codepoint.) -/
def mdChar (c : Char) : Bool := c = '*' || c = '_' || c.toNat = 96 || c = '#'

/-- `_strip_md(text)`: `re.sub` with an empty replacement deletes every
class character; then `.strip()`. -/
def stripMd (l : List Char) : List Char := stripWS (l.filter fun c => !mdChar c)

/-- `re.search(r"FINAL_VERDICT[:\s]*(.*?)(?:DECISION_DONE|$)", full_log,
re.DOTALL | re.IGNORECASE)`: the captured block, or the whole log when the
opening marker is absent. -/
def extractBlock (full : List Char) : List Char :=
  match findCI "final_verdict".data full with
  | none => full
  | some i =>
    let j := i + 13 + spanLen isColonSpace (full.drop (i + 13))
    let rest := full.drop j
    match findCI "decision_done".data rest with
    | some k => rest.take k
    | none =>
      if rest.getLast? = some '\n' then rest.take (rest.length - 1) else rest

/-- Fallback scan `for lvl in ("CRITICAL", "HIGH_RISK", "HIGH RISK",
"SUSPICIOUS", "SAFE"): if lvl.lower() in block.lower(): ...` -/
def levelScan (block : List Char) : Option String :=
  (["CRITICAL", "HIGH_RISK", "HIGH RISK", "SUSPICIOUS", "SAFE"] :
      List String).findSome? fun lvl =>
    if (findCI (lcs lvl.data) block).isSome then
      some (String.mk (lvl.data.map fun c => if c = ' ' then '_' else c))
    else none

structure Verdict where
  threat_level : String
  threat_score : Nat
  summary : String
  caller_type : String
  recommendation : String
deriving DecidableEq, Repr

/-- `extract_final_verdict(full_log)` with the source's defaults
(`UNKNOWN` / `0` / `""` / `Unknown` / `""`). -/
def extractFinalVerdict (full_log : String) : Verdict :=
  let block := extractBlock full_log.data
  let threat_level :=
    match searchLevel block with
    | some g =>
      String.mk (((stripMd g).map pyUpper).map fun c =>
        if c = ' ' then '_' else c)
    | none => (levelScan block).getD "UNKNOWN"
  let threat_score :=
    match searchScoreLabeled block with
    | some n => n
    | none => (searchScoreFallback block).getD 0
  let summary :=
    match searchField ["summary".data] block with
    | some g => String.mk (stripWS (stripMd g))
    | none => ""
  let caller_type :=
    match searchField ["caller".data, "type".data] block with
    | some g => String.mk (stripWS (stripMd g))
    | none => "Unknown"
  let recommendation :=
    match searchField ["recommendation".data] block with
    | some g => String.mk (stripWS (stripMd g))
    | none => ""
  { threat_level := threat_level
    threat_score := threat_score
    summary := summary
    caller_type := caller_type
    recommendation := recommendation }

/-! ## End-of-stream decision in `analyze_call` -/

inductive RunOutcome where
  | noData
  | verdict (v : Verdict)
deriving DecidableEq, Repr

/-- The `full_log` rendering of the message list (each entry on its own
line as `[source] content`; empty when no messages, which is how every
branch of the source maintains it). -/
def renderLog (msgs : List (String × String)) : String :=
  match msgs with
  | [] => ""
  | _ =>
    String.intercalate "\n" (msgs.map fun m => "[" ++ m.1 ++ "] " ++ m.2)
      ++ "\n"

/-- After the stream closes: `if not messages:` report the no-data failure
and return — only otherwise is `extract_final_verdict` reached. -/
def finishRun (st : AggState) : RunOutcome :=
  if st.messages = [] then .noData
  else .verdict (extractFinalVerdict (renderLog st.messages))

/-! ## Specification-side definitions

These follow the wording of the specification (and of the claims under
check), for comparison against the source-derived definitions above. -/

/-- The §4.1 scoring formula computed from the fields of a returned
result, with `hits` the number of distinct keywords in the (already
deduplicated) evidence lists — the reading asserted by the score-invariant
claim.  Exact half-point arithmetic as in `computeScore`. -/
def specScoreOfResult (r : AnalysisResult) : Nat :=
  let triggered :=
    ([r.fear_indicators, r.authority_impersonation, r.urgency_signals,
      r.financial_pressure].countP fun lst => !lst.isEmpty)
  min ((25 * min r.fear_indicators.length 2
      + 25 * min r.authority_impersonation.length 2
      + 25 * min r.urgency_signals.length 2
      + 25 * min r.financial_pressure.length 2
      + (if 2 ≤ triggered then 20 else 0)
      + 30 * min r.high_severity_count 2) / 2) 100

/-- The keyword occurs, case-insensitively, in the text at index `i`. -/
def OccursAt (kw text : String) (i : Nat) : Prop :=
  ((lcs text.data).drop i).take kw.data.length = lcs kw.data

/-- A regex word boundary of the (lowercased) text lies at position `i`. -/
def WordBoundaryAt (text : String) (i : Nat) : Prop :=
  hasBoundary (lcs text.data) i = true

/-- The event contributes no entry to `messages`: it is ignored by type, or
rejected by the unknown-source / empty-content guards. -/
def yieldsNoMessage : StreamEvent → Prop
  | .textMessage s c => s ∉ KNOWN_AGENTS ∨ c = ""
  | .response s c => s ∉ KNOWN_AGENTS ∨ c = ""
  | .taskResult msgs => ∀ m ∈ msgs, m.1 ∉ KNOWN_AGENTS ∨ m.2 = ""
  | .other => True

instance : DecidablePred yieldsNoMessage := fun e =>
  match e with
  | .textMessage s c => inferInstanceAs (Decidable (s ∉ KNOWN_AGENTS ∨ c = ""))
  | .response s c => inferInstanceAs (Decidable (s ∉ KNOWN_AGENTS ∨ c = ""))
  | .taskResult msgs =>
    inferInstanceAs (Decidable (∀ m ∈ msgs, m.1 ∉ KNOWN_AGENTS ∨ m.2 = ""))
  | .other => inferInstanceAs (Decidable True)

/-- The event is a streamed (non-final) event of a stage other than `A` —
"another stage's event" in the supersession scenario. -/
def notForStage (A : String) : StreamEvent → Prop
  | .textMessage s _ => s ≠ A
  | .response s _ => s ≠ A
  | .taskResult _ => False
  | .other => True

instance (A : String) : DecidablePred (notForStage A) := fun e =>
  match e with
  | .textMessage s _ => inferInstanceAs (Decidable (s ≠ A))
  | .response s _ => inferInstanceAs (Decidable (s ≠ A))
  | .taskResult _ => inferInstanceAs (Decidable False)
  | .other => inferInstanceAs (Decidable True)

/-- The content of stage `s`'s last message (with usable content) in a
final record — "that stage's content in the final record". -/
def lastValidContent (msgs : List (String × String)) (s : String) :
    Option String :=
  ((msgs.filter fun m => m.1 = s ∧ m.2 ≠ "").getLast?).map Prod.snd

/-- Consistency of the `agent_msg_index` dict with the message list during
live streaming: every recorded index points at an entry of the recorded
agent, an agent is recorded exactly when it has an entry, and each agent
has at most one entry. -/
def IndexOk (st : AggState) : Prop :=
  (∀ s i, st.index.lookup s = some i → ∃ c, st.messages.get? i = some (s, c))
  ∧ (∀ s : String, (st.index.lookup s).isSome ↔ s ∈ st.messages.map Prod.fst)
  ∧ (st.messages.map Prod.fst).Nodup

/-! # Theorems -/

set_option maxRecDepth 10000

/-- C2: `get_threat_level` returns CRITICAL iff `score ≥ 75`, HIGH_RISK iff
`50 ≤ score < 75`, SUSPICIOUS iff `25 ≤ score < 50`, SAFE iff `score < 25`,
totally over all integers; with the boundary values `24 → SAFE`,
`25 → SUSPICIOUS`, `49 → SUSPICIOUS`, `50 → HIGH_RISK`, `74 → HIGH_RISK`,
`75 → CRITICAL`. -/
theorem getThreatLevel_thresholds :
    (∀ s : Int,
      (getThreatLevel s = "CRITICAL" ↔ 75 ≤ s)
      ∧ (getThreatLevel s = "HIGH_RISK" ↔ 50 ≤ s ∧ s < 75)
      ∧ (getThreatLevel s = "SUSPICIOUS" ↔ 25 ≤ s ∧ s < 50)
      ∧ (getThreatLevel s = "SAFE" ↔ s < 25))
    ∧ getThreatLevel 24 = "SAFE" ∧ getThreatLevel 25 = "SUSPICIOUS"
    ∧ getThreatLevel 49 = "SUSPICIOUS" ∧ getThreatLevel 50 = "HIGH_RISK"
    ∧ getThreatLevel 74 = "HIGH_RISK" ∧ getThreatLevel 75 = "CRITICAL" := by
  refine ⟨fun s => ?_, by decide, by decide, by decide, by decide, by decide,
    by decide⟩
  unfold getThreatLevel
  split_ifs with h1 h2 h3 <;>
    refine ⟨?_, ?_, ?_, ?_⟩ <;>
    constructor <;>
    intro h <;>
    first
      | rfl
      | omega
      | exact absurd h (by decide)

/-- Helper for the monotonicity claim: the rank of the produced label as a
function of the score. -/
theorem rank_getThreatLevel (s : Int) :
    levelRank (getThreatLevel s) =
      if 75 ≤ s then 3 else if 50 ≤ s then 2 else if 25 ≤ s then 1 else 0 := by
  unfold getThreatLevel
  split_ifs with h1 h2 h3 <;> decide

/-- C10: the classifier is monotone — a higher score never yields a lower
threat level in the order SAFE < SUSPICIOUS < HIGH_RISK < CRITICAL. -/
theorem getThreatLevel_monotone : ∀ s1 s2 : Int, s1 ≤ s2 →
    levelRank (getThreatLevel s1) ≤ levelRank (getThreatLevel s2) := by
  intro s1 s2 h
  rw [rank_getThreatLevel, rank_getThreatLevel]
  split_ifs <;> omega

/-- Witness for C10 at scores 30 ≤ 80. -/
theorem getThreatLevel_monotone_witness :
    levelRank (getThreatLevel 30) ≤ levelRank (getThreatLevel 80) :=
  getThreatLevel_monotone 30 80 (by decide)

/-- C9: a non-string or empty input yields the zero result — all four
evidence lists empty, score 0, high-severity count 0 — with no error (the
function is total). -/
theorem analyzeText_zero_on_invalid : ∀ input : Option String,
    input = none ∨ input = some "" →
    analyzeText input = emptyResult
    ∧ (analyzeText input).fear_indicators = []
    ∧ (analyzeText input).authority_impersonation = []
    ∧ (analyzeText input).urgency_signals = []
    ∧ (analyzeText input).financial_pressure = []
    ∧ (analyzeText input).threat_score = 0
    ∧ (analyzeText input).high_severity_count = 0 := by
  rintro input (rfl | rfl) <;> exact ⟨rfl, rfl, rfl, rfl, rfl, rfl, rfl⟩

/-- Witness for C9 at the non-string input. -/
theorem analyzeText_zero_on_invalid_witness :
    analyzeText none = emptyResult
    ∧ (analyzeText none).fear_indicators = []
    ∧ (analyzeText none).authority_impersonation = []
    ∧ (analyzeText none).urgency_signals = []
    ∧ (analyzeText none).financial_pressure = []
    ∧ (analyzeText none).threat_score = 0
    ∧ (analyzeText none).high_severity_count = 0 :=
  analyzeText_zero_on_invalid none (Or.inl rfl)

/-- C7: escalation triggers no notification for SAFE and SUSPICIOUS, the
family notification only for HIGH_RISK, both notifications for CRITICAL,
and treats every unrecognized level exactly as SUSPICIOUS (which differs
observably from SAFE). -/
theorem escalate_mapping :
    ((escalate "SAFE").notifyFamily = false
      ∧ (escalate "SAFE").notifyPolice = false
      ∧ (escalate "SUSPICIOUS").notifyFamily = false
      ∧ (escalate "SUSPICIOUS").notifyPolice = false
      ∧ (escalate "HIGH_RISK").notifyFamily = true
      ∧ (escalate "HIGH_RISK").notifyPolice = false
      ∧ (escalate "CRITICAL").notifyFamily = true
      ∧ (escalate "CRITICAL").notifyPolice = true
      ∧ escalate "SUSPICIOUS" ≠ escalate "SAFE")
    ∧ ∀ level : String,
        level ∉ (["SAFE", "SUSPICIOUS", "HIGH_RISK", "CRITICAL"] : List String) →
        escalate level = escalate "SUSPICIOUS" := by
  refine ⟨by decide, fun level h => ?_⟩
  simp only [List.mem_cons, List.not_mem_nil, or_false, not_or] at h
  obtain ⟨h1, h2, h3, h4⟩ := h
  have e1 : (level == "SAFE") = false := beq_eq_false_iff_ne.mpr h1
  have e2 : (level == "SUSPICIOUS") = false := beq_eq_false_iff_ne.mpr h2
  have e3 : (level == "HIGH_RISK") = false := beq_eq_false_iff_ne.mpr h3
  have e4 : (level == "CRITICAL") = false := beq_eq_false_iff_ne.mpr h4
  simp [escalate, escalationRulesGet, ESCALATION_RULES, List.lookup,
    e1, e2, e3, e4]

/-- Witness for C7 at a concrete unrecognized level. -/
theorem escalate_mapping_witness :
    escalate "VERY_BAD" = escalate "SUSPICIOUS" :=
  escalate_mapping.2 "VERY_BAD" (by decide)

/-- Helper for C1: the source's `_compute_score` agrees with the §4.1
formula shape applied to the lengths of the lists it is given. -/
theorem computeScore_formula (f a u fi : List String) (hs : Nat) :
    computeScore f a u fi hs =
      min ((25 * min f.length 2 + 25 * min a.length 2 + 25 * min u.length 2
        + 25 * min fi.length 2
        + (if 2 ≤ ([f, a, u, fi].countP fun lst => !lst.isEmpty) then 20
           else 0)
        + 30 * min hs 2) / 2) 100 := by
  unfold computeScore contributionHalf
  ring_nf

/-- C1, counterexample: on the input `"police"` (a keyword present in both
the English and the Hindi fear lists) the returned score is 25 — two raw
matches fill the fear category — while the claimed formula over the
returned, deduplicated evidence (one distinct fear keyword) yields 12, so
the score is not the claimed function of the returned fields. -/
theorem analyzeText_score_from_dedup_evidence_cex :
    (analyzeText (some "police")).threat_score = 25
    ∧ specScoreOfResult (analyzeText (some "police")) = 12
    ∧ (analyzeText (some "police")).threat_score
        ≠ specScoreOfResult (analyzeText (some "police")) := by
  refine ⟨by decide, by decide, by decide⟩

/-- C1 as amended: the score is computed by the §4.1 formula with `hits`
counted over the raw per-category match lists (one count per entry of the
concatenated multilingual keyword lists); whenever no matched keyword
occurs in more than one language sub-list of its category — i.e. the raw
match lists are duplicate-free — the score is exactly the claimed formula
over the returned, deduplicated evidence fields and
`high_severity_count`. -/
theorem analyzeText_score_from_dedup_evidence (t : String)
    (hf : (rawFear t).Nodup) (ha : (rawAuthority t).Nodup)
    (hu : (rawUrgency t).Nodup) (hfi : (rawFinancial t).Nodup) :
    (analyzeText (some t)).threat_score
      = specScoreOfResult (analyzeText (some t)) := by
  by_cases ht : t = ""
  · subst ht; decide
  · simp only [analyzeText, if_neg ht, specScoreOfResult]
    rw [List.dedup_eq_self.mpr hf, List.dedup_eq_self.mpr ha,
      List.dedup_eq_self.mpr hu, List.dedup_eq_self.mpr hfi]
    exact computeScore_formula _ _ _ _ _

/-- Witness for C1 (amended) at the input `"arrest"`, whose raw match
lists are duplicate-free. -/
theorem analyzeText_score_from_dedup_evidence_witness :
    (analyzeText (some "arrest")).threat_score
      = specScoreOfResult (analyzeText (some "arrest")) :=
  analyzeText_score_from_dedup_evidence "arrest" (by decide) (by decide)
    (by decide) (by decide)

/-- Helper: the `TaskResult` rebuild keeps nothing when every message is
rejected by the known-source / usable-content guards. -/
theorem foldl_tsStep_rejected (msgs : List (String × String)) :
    ∀ acc : List (String × String),
    (∀ m ∈ msgs, m.1 ∉ KNOWN_AGENTS ∨ m.2 = "") →
    msgs.foldl tsStep acc = acc := by
  induction msgs with
  | nil => intro acc _; rfl
  | cons m rest ih =>
    intro acc h
    have hm := h m (List.mem_cons_self m rest)
    have hstep : tsStep acc m = acc := by
      unfold tsStep
      rw [if_neg]
      rintro ⟨h1, h2⟩
      rcases hm with hm | hm
      · exact hm h1
      · exact h2 hm
    simp only [List.foldl_cons, hstep]
    exact ih acc fun x hx => h x (List.mem_cons_of_mem m hx)

/-- Helper: an event that yields no message keeps the message list
empty. -/
theorem ingest_keeps_nil (st : AggState) (e : StreamEvent)
    (hst : st.messages = []) (he : yieldsNoMessage e) :
    (ingest st e).messages = [] := by
  cases e with
  | textMessage s c =>
    simp only [ingest, acceptStream]
    rw [if_neg]
    · exact hst
    · rintro ⟨h1, h2⟩
      rcases he with he | he
      · exact he h1
      · exact h2 he
  | response s c =>
    simp only [ingest, acceptStream]
    rw [if_neg]
    · exact hst
    · rintro ⟨h1, h2⟩
      rcases he with he | he
      · exact he h1
      · exact h2 he
  | taskResult msgs =>
    have hb : buildFinalMessages msgs = [] := foldl_tsStep_rejected msgs [] he
    simp only [ingest, acceptTaskResult, hb, if_pos rfl]
    exact hst
  | other => exact hst

/-- Helper: a run all of whose events yield no message ends with an empty
message list. -/
theorem foldl_ingest_nil (events : List StreamEvent) :
    ∀ st : AggState, st.messages = [] →
    (∀ e ∈ events, yieldsNoMessage e) →
    (events.foldl ingest st).messages = [] := by
  induction events with
  | nil => intro st h0 _; exact h0
  | cons e es ih =>
    intro st h0 h
    simp only [List.foldl_cons]
    exact ih _ (ingest_keeps_nil st e h0 (h e (List.mem_cons_self e es)))
      fun x hx => h x (List.mem_cons_of_mem e hx)

/-- C4: a run whose stream closes with zero ingested agent messages
reports the distinguished no-data failure, and in particular never any
verdict (the failure branch precedes verdict extraction). -/
theorem noData_on_zero_events : ∀ events : List StreamEvent,
    (∀ e ∈ events, yieldsNoMessage e) →
    finishRun (runAgg events) = RunOutcome.noData
    ∧ ∀ v : Verdict, finishRun (runAgg events) ≠ RunOutcome.verdict v := by
  intro events h
  have hm : (runAgg events).messages = [] := foldl_ingest_nil events initAgg rfl h
  refine ⟨by simp [finishRun, hm], fun v => by simp [finishRun, hm]⟩

/-- Witness for C4: a stream with only an unknown source, an empty
response, and an ignored event ends in the no-data failure. -/
theorem noData_on_zero_events_witness :
    finishRun (runAgg [.textMessage "Narrator" "hello",
      .response "Speech_Agent" "", .other]) = RunOutcome.noData
    ∧ ∀ v : Verdict,
        finishRun (runAgg [.textMessage "Narrator" "hello",
          .response "Speech_Agent" "", .other]) ≠ RunOutcome.verdict v :=
  noData_on_zero_events _ (by decide)

/-- Helper: `isPrefixOf` on characters is the take-equality. -/
theorem isPrefixOf_eq_take : ∀ p l : List Char,
    (p.isPrefixOf l = true ↔ l.take p.length = p)
  | [], l => by simp [List.isPrefixOf]
  | a :: as, [] => by simp [List.isPrefixOf]
  | a :: as, b :: bs => by
    simp only [List.isPrefixOf, Bool.and_eq_true, beq_iff_eq, List.length_cons,
      List.take_succ_cons, List.cons.injEq]
    rw [isPrefixOf_eq_take as bs]
    constructor
    · rintro ⟨rfl, h⟩; exact ⟨rfl, h⟩
    · rintro ⟨rfl, h⟩; exact ⟨rfl, h⟩

theorem lcs_length (l : List Char) : (lcs l).length = l.length :=
  List.length_map l pyLower

/-- Helper: the substring scan succeeds iff some index carries the
pattern. -/
theorem containsSub_iff (pat txt : List Char) :
    containsSub pat txt = true ↔ ∃ i, (txt.drop i).take pat.length = pat := by
  unfold containsSub substrAt
  rw [List.any_eq_true]
  constructor
  · rintro ⟨i, -, hp⟩
    exact ⟨i, (isPrefixOf_eq_take _ _).mp hp⟩
  · rintro ⟨i, hi⟩
    by_cases hle : i ≤ txt.length
    · exact ⟨i, List.mem_range.mpr (by omega), (isPrefixOf_eq_take _ _).mpr hi⟩
    · have hd : txt.drop i = [] := List.drop_eq_nil_of_le (by omega)
      rw [hd, List.take_nil] at hi
      refine ⟨0, List.mem_range.mpr (by omega), ?_⟩
      rw [← hi, List.isPrefixOf]

/-- Helper: beyond the end of the text there is no word boundary. -/
theorem hasBoundary_of_gt (txt : List Char) (i : Nat) (h : txt.length < i) :
    hasBoundary txt i = false := by
  unfold hasBoundary
  rw [List.get?_eq_none.mpr (by omega), List.get?_eq_none.mpr (by omega),
    if_neg (by omega)]
  rfl

/-- Helper: the boundary-checked scan succeeds iff some index carries the
pattern flanked by word boundaries. -/
theorem boundedContains_iff (pat txt : List Char) :
    boundedContains pat txt = true ↔
      ∃ i, (txt.drop i).take pat.length = pat ∧ hasBoundary txt i = true
        ∧ hasBoundary txt (i + pat.length) = true := by
  unfold boundedContains substrAt
  rw [List.any_eq_true]
  constructor
  · rintro ⟨i, -, hp⟩
    rw [Bool.and_eq_true, Bool.and_eq_true] at hp
    exact ⟨i, (isPrefixOf_eq_take _ _).mp hp.1.1, hp.1.2, hp.2⟩
  · rintro ⟨i, h1, h2, h3⟩
    have hle : i ≤ txt.length := by
      by_contra hgt
      rw [hasBoundary_of_gt txt i (by omega)] at h2
      exact Bool.noConfusion h2
    refine ⟨i, List.mem_range.mpr (by omega), ?_⟩
    rw [Bool.and_eq_true, Bool.and_eq_true]
    exact ⟨⟨(isPrefixOf_eq_take _ _).mpr h1, h2⟩, h3⟩

/-- Helper: membership in `_find_matches` over a single-keyword list is
the corresponding scan. -/
theorem mem_findMatches_singleton (text kw : String) :
    kw ∈ findMatches text [kw] ↔
      (if (lcs kw.data).length ≤ 5
        then boundedContains (lcs kw.data) (lcs text.data)
        else containsSub (lcs kw.data) (lcs text.data)) = true := by
  unfold findMatches
  rw [List.filter_cons, List.filter_nil]
  dsimp only
  split_ifs <;> simp_all

/-- C8: a keyword of normalized length at most 5 is reported exactly when
it occurs at word boundaries — never merely inside a longer word — while a
longer keyword is reported exactly when it occurs as a case-insensitive
substring anywhere; in particular the 2-character keyword "ed" does not
match inside "needed" but does match standalone. -/
theorem short_keyword_word_boundary :
    (∀ kw text : String, (lcs kw.data).length ≤ 5 →
      (kw ∈ findMatches text [kw] ↔
        ∃ i, OccursAt kw text i ∧ WordBoundaryAt text i
          ∧ WordBoundaryAt text (i + kw.data.length)))
    ∧ (∀ kw text : String, 5 < (lcs kw.data).length →
      (kw ∈ findMatches text [kw] ↔ ∃ i, OccursAt kw text i))
    ∧ "ed" ∉ findMatches "you needed help" ["ed"]
    ∧ "ed" ∈ findMatches "ed called you" ["ed"] := by
  refine ⟨fun kw text h5 => ?_, fun kw text h5 => ?_, by decide, by decide⟩
  · rw [mem_findMatches_singleton, if_pos h5, boundedContains_iff]
    simp only [OccursAt, WordBoundaryAt, lcs_length]
  · rw [mem_findMatches_singleton, if_neg (by omega), containsSub_iff]
    simp only [OccursAt, lcs_length]

/-- Witness for C8 at the short keyword "fir". -/
theorem short_keyword_word_boundary_witness :
    (lcs "fir".data).length ≤ 5
    ∧ ("fir" ∈ findMatches "an fir case was filed" ["fir"] ↔
        ∃ i, OccursAt "fir" "an fir case was filed" i
          ∧ WordBoundaryAt "an fir case was filed" i
          ∧ WordBoundaryAt "an fir case was filed" (i + "fir".data.length)) :=
  ⟨by decide,
    short_keyword_word_boundary.1 "fir" "an fir case was filed" (by decide)⟩

/-- Helper: writing back a value already present at an index is the
identity. -/
theorem list_set_self {α : Type} (l : List α) (i : Nat) (a : α)
    (h : l.get? i = some a) : l.set i a = l := by
  apply List.ext_get?
  intro n
  rcases eq_or_ne i n with rfl | hne
  · have hlt : i < l.length := by
      by_contra hge
      rw [List.get?_eq_none.mpr (by omega)] at h
      exact Option.noConfusion h
    rw [List.get?_set_eq_of_lt _ hlt, h]
  · exact List.get?_set_ne _ _ hne

/-- Helper: association-list lookup across an append, hit in the left
part. -/
theorem lookup_append_some :
    ∀ (l1 l2 : List (String × Nat)) (k : String) (v : Nat),
    l1.lookup k = some v → (l1 ++ l2).lookup k = some v
  | [], _, k, v, h => by simp [List.lookup] at h
  | (k', v') :: rest, l2, k, v, h => by
    simp only [List.lookup] at h ⊢
    cases hk : (k == k') with
    | true => rw [hk] at h; exact h
    | false => rw [hk] at h; exact lookup_append_some rest l2 k v h

/-- Helper: association-list lookup across an append, missing the left
part. -/
theorem lookup_append_none :
    ∀ (l1 l2 : List (String × Nat)) (k : String),
    l1.lookup k = none → (l1 ++ l2).lookup k = l2.lookup k
  | [], _, _, _ => rfl
  | (k', v') :: rest, l2, k, h => by
    simp only [List.lookup] at h ⊢
    cases hk : (k == k') with
    | true => rw [hk] at h; exact Option.noConfusion h
    | false => rw [hk] at h; exact lookup_append_none rest l2 k h

/-- Helper: lookup in a one-entry association list. -/
theorem lookup_singleton (k k' : String) (v : Nat) :
    List.lookup k [(k', v)] = if k = k' then some v else none := by
  simp only [List.lookup]
  by_cases h : k = k'
  · rw [if_pos h, show (k == k') = true from beq_iff_eq.mpr h]
  · rw [if_neg h, show (k == k') = false from beq_eq_false_iff_ne.mpr h]

theorem indexOk_init : IndexOk initAgg := by
  refine ⟨?_, ?_, ?_⟩
  · intro s i h
    simp [initAgg, List.lookup] at h
  · intro s
    simp [initAgg, List.lookup]
  · simp [initAgg]

/-- Helper: complete case analysis of one live-streaming ingest step.
The index invariant is preserved; the stage order either stays or gains
the event's source at the end; entries of other stages are untouched; and
an accepted event from an already-present stage keeps the order and stores
its content. -/
theorem acceptStream_spec (source content : String) (st : AggState)
    (hok : IndexOk st) :
    IndexOk (acceptStream source content st)
    ∧ ((acceptStream source content st).messages.map Prod.fst
          = st.messages.map Prod.fst
        ∨ ((acceptStream source content st).messages.map Prod.fst
              = st.messages.map Prod.fst ++ [source]
            ∧ source ∉ st.messages.map Prod.fst))
    ∧ (∀ A x, A ≠ source →
        ((A, x) ∈ (acceptStream source content st).messages
          ↔ (A, x) ∈ st.messages))
    ∧ (source ∈ KNOWN_AGENTS → content ≠ "" →
        source ∈ st.messages.map Prod.fst →
        (acceptStream source content st).messages.map Prod.fst
            = st.messages.map Prod.fst
          ∧ (source, content) ∈ (acceptStream source content st).messages) := by
  obtain ⟨hok1, hok2, hok3⟩ := hok
  unfold acceptStream
  by_cases hg : source ∈ KNOWN_AGENTS ∧ content ≠ ""
  case neg =>
    rw [if_neg hg]
    exact ⟨⟨hok1, hok2, hok3⟩, Or.inl rfl, fun A x _ => Iff.rfl,
      fun h1 h2 _ => absurd ⟨h1, h2⟩ hg⟩
  case pos =>
    rw [if_pos hg]
    cases hlk : st.index.lookup source with
    | none =>
      dsimp only
      have hnotmem : source ∉ st.messages.map Prod.fst := by
        rw [← hok2, hlk]
        simp
      refine ⟨⟨?_, ?_, ?_⟩, ?_, ?_, ?_⟩
      · -- recorded indices point at entries of their agent
        intro s i hsi
        cases h1 : st.index.lookup s with
        | some j =>
          rw [lookup_append_some st.index _ s j h1] at hsi
          injection hsi with hij
          subst hij
          obtain ⟨c, hc⟩ := hok1 s j h1
          have hjlt : j < st.messages.length := by
            by_contra hge
            rw [List.get?_eq_none.mpr (by omega)] at hc
            exact Option.noConfusion hc
          exact ⟨c, by rw [List.get?_append hjlt]; exact hc⟩
        | none =>
          rw [lookup_append_none st.index _ s h1, lookup_singleton] at hsi
          by_cases hss : s = source
          · subst hss
            rw [if_pos rfl] at hsi
            injection hsi with hij
            subst hij
            exact ⟨content, List.get?_concat_length _ _⟩
          · rw [if_neg hss] at hsi
            exact Option.noConfusion hsi
      · -- agents recorded iff present
        intro s
        rw [List.map_append]
        cases h1 : st.index.lookup s with
        | some j =>
          rw [lookup_append_some st.index _ s j h1]
          have hmem : s ∈ st.messages.map Prod.fst :=
            (hok2 s).mp (by rw [h1]; rfl)
          simp [hmem]
        | none =>
          rw [lookup_append_none st.index _ s h1, lookup_singleton]
          have hmem : s ∉ st.messages.map Prod.fst := by
            rw [← hok2, h1]
            simp
          by_cases hss : s = source
          · subst hss
            rw [if_pos rfl]
            simp
          · rw [if_neg hss]
            simp [hmem, hss]
      · -- order still duplicate-free
        rw [List.map_append]
        refine List.Nodup.append hok3 (List.nodup_singleton source) ?_
        intro a ha hb
        simp only [List.map_cons, List.map_nil, List.mem_singleton] at hb
        subst hb
        exact hnotmem ha
      · exact Or.inr ⟨by rw [List.map_append]; rfl, hnotmem⟩
      · intro A x hA
        simp only [List.mem_append, List.mem_singleton, Prod.mk.injEq]
        constructor
        · rintro (h | ⟨h1, h2⟩)
          · exact h
          · exact absurd h1 hA
        · exact Or.inl
      · intro _ _ hmem
        exact absurd hmem hnotmem
    | some idx =>
      dsimp only
      obtain ⟨c', hc'⟩ := hok1 source idx hlk
      have hidxlt : idx < st.messages.length := by
        by_contra hge
        rw [List.get?_eq_none.mpr (by omega)] at hc'
        exact Option.noConfusion hc'
      have hfst :
          (st.messages.set idx (source, content)).map Prod.fst
            = st.messages.map Prod.fst := by
        rw [List.map_set]
        exact list_set_self _ _ _
          (by rw [List.get?_map, hc']; rfl)
      have hgetnew :
          (st.messages.set idx (source, content)).get? idx
            = some (source, content) :=
        List.get?_set_eq_of_lt _ hidxlt
      refine ⟨⟨?_, ?_, ?_⟩, Or.inl hfst, ?_, ?_⟩
      · intro s i hsi
        obtain ⟨c0, hc0⟩ := hok1 s i hsi
        rcases eq_or_ne i idx with rfl | hne
        · rw [hc'] at hc0
          injection hc0 with hc0'
          have hs : s = source := by
            have h' := congrArg Prod.fst hc0'
            simpa using h'.symm
          subst hs
          exact ⟨content, hgetnew⟩
        · exact ⟨c0, by rw [List.get?_set_ne _ _ (Ne.symm hne)]; exact hc0⟩
      · intro s
        rw [hfst]
        exact hok2 s
      · rw [hfst]
        exact hok3
      · intro A x hA
        rw [List.mem_iff_get?, List.mem_iff_get?]
        constructor
        · rintro ⟨n, hn⟩
          rcases eq_or_ne n idx with rfl | hne
          · rw [hgetnew] at hn
            injection hn with hn'
            have h' : source = A := by
              have := congrArg Prod.fst hn'
              simpa using this
            exact absurd h'.symm hA
          · rw [List.get?_set_ne _ _ (Ne.symm hne)] at hn
            exact ⟨n, hn⟩
        · rintro ⟨n, hn⟩
          rcases eq_or_ne n idx with rfl | hne
          · rw [hc'] at hn
            injection hn with hn'
            have h' : source = A := by
              have := congrArg Prod.fst hn'
              simpa using this
            exact absurd h'.symm hA
          · exact ⟨n, by rw [List.get?_set_ne _ _ (Ne.symm hne)]; exact hn⟩
      · intro _ _ _
        exact ⟨hfst, List.get?_mem hgetnew⟩

/-- Helper: a run of streamed events not concerning stage `A` preserves
the index invariant, `A`'s entry count, `A`'s order position, and `A`'s
entries. -/
theorem foldl_notFor (A : String) (es : List StreamEvent) :
    ∀ st : AggState, IndexOk st → (∀ e ∈ es, notForStage A e) →
    IndexOk (es.foldl ingest st)
    ∧ ((es.foldl ingest st).messages.map Prod.fst).count A
        = (st.messages.map Prod.fst).count A
    ∧ (A ∈ st.messages.map Prod.fst →
        ((es.foldl ingest st).messages.map Prod.fst).indexOf A
          = (st.messages.map Prod.fst).indexOf A)
    ∧ ∀ x, ((A, x) ∈ (es.foldl ingest st).messages ↔ (A, x) ∈ st.messages) := by
  induction es with
  | nil => exact fun st hok _ => ⟨hok, rfl, fun _ => rfl, fun x => Iff.rfl⟩
  | cons e rest ih =>
    intro st hok hall
    have he := hall e (List.mem_cons_self e rest)
    have hstep : IndexOk (ingest st e)
        ∧ ((ingest st e).messages.map Prod.fst = st.messages.map Prod.fst
          ∨ ∃ B, B ≠ A ∧ (ingest st e).messages.map Prod.fst
              = st.messages.map Prod.fst ++ [B])
        ∧ ∀ x, ((A, x) ∈ (ingest st e).messages ↔ (A, x) ∈ st.messages) := by
      cases e with
      | textMessage s c =>
        have he' : s ≠ A := he
        obtain ⟨h1, h2, h3, -⟩ := acceptStream_spec s c st hok
        refine ⟨h1, ?_, fun x => h3 A x (Ne.symm he')⟩
        rcases h2 with h2 | ⟨h2, -⟩
        · exact Or.inl h2
        · exact Or.inr ⟨s, he', h2⟩
      | response s c =>
        have he' : s ≠ A := he
        obtain ⟨h1, h2, h3, -⟩ := acceptStream_spec s c st hok
        refine ⟨h1, ?_, fun x => h3 A x (Ne.symm he')⟩
        rcases h2 with h2 | ⟨h2, -⟩
        · exact Or.inl h2
        · exact Or.inr ⟨s, he', h2⟩
      | taskResult msgs => exact (he : False).elim
      | other => exact ⟨hok, Or.inl rfl, fun x => Iff.rfl⟩
    obtain ⟨hok', hord, hmem⟩ := hstep
    have hrest := ih (ingest st e) hok'
      fun x hx => hall x (List.mem_cons_of_mem e hx)
    rw [List.foldl_cons]
    refine ⟨hrest.1, ?_, ?_, ?_⟩
    · rw [hrest.2.1]
      rcases hord with h | ⟨B, hBA, h⟩
      · rw [h]
      · rw [h, List.count_append]
        have hz : (List.count A [B]) = 0 :=
          List.count_eq_zero.mpr (by simp [Ne.symm hBA])
        rw [hz]
        rfl
    · intro hAmem
      have hA' : A ∈ (ingest st e).messages.map Prod.fst := by
        rcases hord with h | ⟨B, hBA, h⟩
        · rw [h]; exact hAmem
        · rw [h]; exact List.mem_append_left _ hAmem
      rw [hrest.2.2.1 hA']
      rcases hord with h | ⟨B, hBA, h⟩
      · rw [h]
      · rw [h, List.indexOf_append_of_mem hAmem]
    · intro x
      rw [hrest.2.2.2 x, hmem x]

/-- C3: after a first event from stage `A` with content `p`, any run of
other stages' events, and a second event from `A` with content `f`, the
projection holds exactly one entry for `A`, its content is `f`, and `A`
sits in the order at the position of its first emission (the number of
stages recorded while processing the prefix). -/
theorem supersession_latest_wins (A p f : String) (pre mid : List StreamEvent)
    (hA : A ∈ KNOWN_AGENTS) (hp : p ≠ "") (hf : f ≠ "")
    (hpre : ∀ e ∈ pre, notForStage A e) (hmid : ∀ e ∈ mid, notForStage A e) :
    ((runAgg (pre ++ [StreamEvent.textMessage A p] ++ mid
        ++ [StreamEvent.textMessage A f])).messages.map Prod.fst).count A = 1
    ∧ (A, f) ∈ (runAgg (pre ++ [StreamEvent.textMessage A p] ++ mid
        ++ [StreamEvent.textMessage A f])).messages
    ∧ ((runAgg (pre ++ [StreamEvent.textMessage A p] ++ mid
        ++ [StreamEvent.textMessage A f])).messages.map Prod.fst).indexOf A
        = (runAgg pre).messages.length := by
  have hsplit : runAgg (pre ++ [StreamEvent.textMessage A p] ++ mid
      ++ [StreamEvent.textMessage A f])
      = acceptStream A f
          (mid.foldl ingest (acceptStream A p (runAgg pre))) := by
    unfold runAgg
    rw [List.foldl_append, List.foldl_append, List.foldl_append]
    rfl
  have h0 := foldl_notFor A pre initAgg indexOk_init hpre
  have hok0 : IndexOk (runAgg pre) := h0.1
  have hcnt0 : ((runAgg pre).messages.map Prod.fst).count A = 0 := by
    have h := h0.2.1
    unfold runAgg
    rw [h]
    rfl
  have hnm0 : A ∉ (runAgg pre).messages.map Prod.fst :=
    List.count_eq_zero.mp hcnt0
  have hlk0 : (runAgg pre).index.lookup A = none := by
    cases hl : (runAgg pre).index.lookup A with
    | none => rfl
    | some v => exact absurd ((hok0.2.1 A).mp (by rw [hl]; rfl)) hnm0
  have hst1 : (acceptStream A p (runAgg pre)).messages
      = (runAgg pre).messages ++ [(A, p)] := by
    unfold acceptStream
    rw [if_pos ⟨hA, hp⟩, hlk0]
  have hok1 : IndexOk (acceptStream A p (runAgg pre)) :=
    (acceptStream_spec A p (runAgg pre) hok0).1
  have hfst1 : (acceptStream A p (runAgg pre)).messages.map Prod.fst
      = (runAgg pre).messages.map Prod.fst ++ [A] := by
    rw [hst1, List.map_append]
    rfl
  have hcnt1 : ((acceptStream A p (runAgg pre)).messages.map Prod.fst).count A
      = 1 := by
    rw [hfst1, List.count_append, hcnt0]
    simp
  have hmem1 : A ∈ (acceptStream A p (runAgg pre)).messages.map Prod.fst := by
    rw [hfst1]
    exact List.mem_append_right _ (List.mem_singleton.mpr rfl)
  have hidx1 : ((acceptStream A p (runAgg pre)).messages.map Prod.fst).indexOf A
      = (runAgg pre).messages.length := by
    rw [hfst1, List.indexOf_append_of_not_mem hnm0]
    simp
  have h2 := foldl_notFor A mid (acceptStream A p (runAgg pre)) hok1 hmid
  have hok2 : IndexOk (mid.foldl ingest (acceptStream A p (runAgg pre))) :=
    h2.1
  have hcnt2 := h2.2.1.trans hcnt1
  have hmem2 : A ∈ (mid.foldl ingest
      (acceptStream A p (runAgg pre))).messages.map Prod.fst := by
    by_contra hcon
    rw [List.count_eq_zero.mpr hcon] at hcnt2
    exact Nat.noConfusion hcnt2
  have hidx2 := (h2.2.2.1 hmem1).trans hidx1
  obtain ⟨-, -, -, hupd⟩ := acceptStream_spec A f
    (mid.foldl ingest (acceptStream A p (runAgg pre))) hok2
  obtain ⟨hfst3, hmem3⟩ := hupd hA hf hmem2
  rw [hsplit]
  exact ⟨by rw [hfst3]; exact hcnt2, hmem3, by rw [hfst3]; exact hidx2⟩

/-- Witness for C3 with a concrete partial/final pair and an interleaved
event from another stage. -/
theorem supersession_latest_wins_witness :
    ((runAgg ([] ++ [StreamEvent.textMessage "Speech_Agent" "partial"]
        ++ [StreamEvent.textMessage "Reasoning_Agent" "note"]
        ++ [StreamEvent.textMessage "Speech_Agent" "final"])).messages.map
          Prod.fst).count "Speech_Agent" = 1
    ∧ ("Speech_Agent", "final") ∈ (runAgg ([]
        ++ [StreamEvent.textMessage "Speech_Agent" "partial"]
        ++ [StreamEvent.textMessage "Reasoning_Agent" "note"]
        ++ [StreamEvent.textMessage "Speech_Agent" "final"])).messages
    ∧ ((runAgg ([] ++ [StreamEvent.textMessage "Speech_Agent" "partial"]
        ++ [StreamEvent.textMessage "Reasoning_Agent" "note"]
        ++ [StreamEvent.textMessage "Speech_Agent" "final"])).messages.map
          Prod.fst).indexOf "Speech_Agent"
        = (runAgg []).messages.length :=
  supersession_latest_wins "Speech_Agent" "partial" "final" []
    [StreamEvent.textMessage "Reasoning_Agent" "note"] (by decide) (by decide)
    (by decide) (by decide) (by decide)

/-- Helper: the `TaskResult` rebuild over one more message is one rebuild
step. -/
theorem buildFinal_concat (tr : List (String × String)) (m : String × String) :
    buildFinalMessages (tr ++ [m]) = tsStep (buildFinalMessages tr) m := by
  unfold buildFinalMessages
  rw [List.foldl_append]
  rfl

/-- Helper: the rebuilt final message list holds at most one entry per
agent. -/
theorem buildFinal_nodup (tr : List (String × String)) :
    ((buildFinalMessages tr).map Prod.fst).Nodup := by
  induction tr using List.reverseRecOn with
  | nil => simp [buildFinalMessages]
  | append_singleton l m ih =>
    rw [buildFinal_concat]
    unfold tsStep
    split_ifs with hg
    · rw [List.map_append]
      refine List.Nodup.append ?_ (List.nodup_singleton _) ?_
      · have hsub : List.Sublist
            ((buildFinalMessages l).filter (fun x => x.1 ≠ m.1))
            (buildFinalMessages l) := List.filter_sublist _
        exact (hsub.map Prod.fst).nodup ih
      · intro a ha hb
        simp only [List.map_cons, List.map_nil, List.mem_singleton] at hb
        subst hb
        obtain ⟨x, hx, hfx⟩ := List.mem_map.mp ha
        have h0 := List.of_mem_filter hx
        simp only [decide_eq_true_eq] at h0
        exact h0 hfx
    · exact ih

/-- Helper: the last usable content of a stage over one more message. -/
theorem lastValidContent_concat (tr : List (String × String))
    (m : String × String) (s : String) :
    lastValidContent (tr ++ [m]) s =
      if m.1 = s ∧ m.2 ≠ "" then some m.2 else lastValidContent tr s := by
  unfold lastValidContent
  rw [List.filter_append]
  split_ifs with hm
  · rw [List.filter_cons, if_pos (by exact decide_eq_true hm), List.filter_nil,
      List.getLast?_concat]
    rfl
  · rw [List.filter_cons, if_neg (by simpa using hm), List.filter_nil,
      List.append_nil]

/-- Helper: an entry survives the `TaskResult` rebuild exactly when it is
the stage's last usable content in the record. -/
theorem buildFinal_mem (s : String) (hs : s ∈ KNOWN_AGENTS) (c : String) :
    ∀ tr : List (String × String),
    ((s, c) ∈ buildFinalMessages tr ↔ lastValidContent tr s = some c) := by
  intro tr
  induction tr using List.reverseRecOn with
  | nil => simp [buildFinalMessages, lastValidContent]
  | append_singleton l m ih =>
    rw [buildFinal_concat, lastValidContent_concat]
    unfold tsStep
    by_cases hg : m.1 ∈ KNOWN_AGENTS ∧ m.2 ≠ ""
    · rw [if_pos hg]
      by_cases hms : m.1 = s
      · rw [if_pos ⟨hms, hg.2⟩]
        simp only [List.mem_append, List.mem_singleton]
        constructor
        · rintro (h | h)
          · have h0 := List.of_mem_filter h
            simp only [decide_eq_true_eq] at h0
            exact absurd hms.symm h0
          · rw [show m = (s, c) from h.symm]
        · intro h
          injection h with h'
          right
          have : m = (m.1, m.2) := rfl
          rw [this, hms, h']
      · rw [if_neg fun hcon => hms hcon.1]
        simp only [List.mem_append, List.mem_singleton]
        constructor
        · rintro (h | h)
          · exact ih.mp (List.mem_of_mem_filter h)
          · exact absurd (congrArg Prod.fst h).symm (by simpa using hms)
        · intro h
          left
          have hne : s ≠ m.1 := fun hcon => hms hcon.symm
          exact List.mem_filter.mpr ⟨ih.mpr h, decide_eq_true hne⟩
    · rw [if_neg hg, if_neg fun hcon =>
        hg ⟨by rw [hcon.1]; exact hs, hcon.2⟩]
      exact ih

/-- C6: after the authoritative end-of-run record arrives, every stage
present in it (with usable content) projects to that stage's last content
in the record, as the unique entry for that stage — regardless of which
partials were streamed before, for this or any other stage. -/
theorem final_record_override (stream : List StreamEvent)
    (tr : List (String × String)) (s c : String)
    (hs : s ∈ KNOWN_AGENTS) (hc : lastValidContent tr s = some c) :
    (s, c) ∈ (runAgg (stream ++ [StreamEvent.taskResult tr])).messages
    ∧ ((runAgg (stream
        ++ [StreamEvent.taskResult tr])).messages.map Prod.fst).count s
        = 1 := by
  have hmem : (s, c) ∈ buildFinalMessages tr := (buildFinal_mem s hs c tr).mpr hc
  have hne : buildFinalMessages tr ≠ [] := List.ne_nil_of_mem hmem
  have hrun : runAgg (stream ++ [StreamEvent.taskResult tr])
      = acceptTaskResult tr (runAgg stream) := by
    unfold runAgg
    rw [List.foldl_append]
    rfl
  have hmsgs : (acceptTaskResult tr (runAgg stream)).messages
      = buildFinalMessages tr := by
    unfold acceptTaskResult
    dsimp only
    rw [if_neg hne]
  rw [hrun, hmsgs]
  exact ⟨hmem, List.count_eq_one_of_mem (buildFinal_nodup tr)
    (List.mem_map.mpr ⟨(s, c), hmem, rfl⟩)⟩

/-- Witness for C6: a stale partial for Decision_Agent, a later partial
for Action_Agent, then a final record whose last Decision_Agent message
wins. -/
theorem final_record_override_witness :
    ("Decision_Agent", "d2") ∈ (runAgg ([StreamEvent.textMessage
        "Decision_Agent" "stale", StreamEvent.textMessage "Action_Agent" "x"]
        ++ [StreamEvent.taskResult
          [("Decision_Agent", "d1"), ("Decision_Agent", "d2")]])).messages
    ∧ ((runAgg ([StreamEvent.textMessage "Decision_Agent" "stale",
        StreamEvent.textMessage "Action_Agent" "x"]
        ++ [StreamEvent.taskResult
          [("Decision_Agent", "d1"),
            ("Decision_Agent", "d2")]])).messages.map Prod.fst).count
        "Decision_Agent" = 1 :=
  final_record_override
    [StreamEvent.textMessage "Decision_Agent" "stale",
      StreamEvent.textMessage "Action_Agent" "x"]
    [("Decision_Agent", "d1"), ("Decision_Agent", "d2")]
    "Decision_Agent" "d2" (by decide) (by decide)

/-- C5 (divergence exhibit): on the specification's verdict-block example
the extractor returns threat score 62, summary "Likely scam.", caller type
"Scammer" and recommendation "Hang up." as required — but threat level
"HIGHRISK", not the required "HIGH_RISK": the labeled-level path captures
"HIGH_RISK" and then `_strip_md`, whose character class contains the
underscore, deletes it. -/
theorem extractFinalVerdict_example :
    extractFinalVerdict "FINAL_VERDICT:\n- Threat Level: **HIGH_RISK**\n- Threat Score: 62\n- Summary: Likely scam.\n- Caller Type: Scammer\n- Recommendation: Hang up.\nDECISION_DONE"
      = { threat_level := "HIGHRISK", threat_score := 62,
          summary := "Likely scam.", caller_type := "Scammer",
          recommendation := "Hang up." }
    ∧ (extractFinalVerdict "FINAL_VERDICT:\n- Threat Level: **HIGH_RISK**\n- Threat Score: 62\n- Summary: Likely scam.\n- Caller Type: Scammer\n- Recommendation: Hang up.\nDECISION_DONE").threat_level
        ≠ "HIGH_RISK" := by
  refine ⟨by decide, by decide⟩

end GuardianAngel
